import Mathlib

/-!
Verification of the nix-tests test-suite execution and reporting pipeline.

Shallow embedding of the Rust sources:
  - `src/reports.rs`: report data model, suite summary, visibility config and
    the two reporters (human and JSON);
  - `src/files.rs`: classification of input paths into valid / not-found /
    invalid test files, with sorting and deduplication;
  - `src/runners.rs`: the shape of completed file reports produced by a run;
  - `src/main.rs`: the process exit code derived from the suite report.

Machine integers (`u8`, `u64`, `u128`, `usize`) are modelled as `Nat`: every
value involved (ranks, counts, elapsed milliseconds) is non-negative and no
arithmetic in the modelled code can overflow in practice, and none of the
verified properties depend on wrap-around.  Rust `String` ordering (byte-wise
lexicographic on UTF-8) coincides with code-point lexicographic order, which
is modelled on `String.data` (the list of characters).
-/

/-! ## Rust string primitives modelled on character lists -/

/-- Lexicographic strict order on character lists: the order `Ord for str`
uses in Rust (byte order on valid UTF-8 equals code-point order). -/
def charListLt : List Char → List Char → Bool
  | [], [] => false
  | [], _ :: _ => true
  | _ :: _, [] => false
  | a :: as, b :: bs => if a < b then true else if b < a then false else charListLt as bs

/-- Strict lexicographic order on strings (Rust `str::cmp == Less`). -/
def strLt (a b : String) : Bool := charListLt a.data b.data

/-- `l` ends with the suffix `suf` (as lists of characters). -/
def listEndsWith (l suf : List Char) : Bool :=
  decide (suf.length ≤ l.length) && (l.drop (l.length - suf.length) == suf)

/-- Rust `str::ends_with` on strings. -/
def ends_with (s suffix : String) : Bool := listEndsWith s.data suffix.data

/-- Rust `str::lines`: split at `\n`, strip one trailing `\r` from each piece
that precedes a split, and drop the final empty piece left by a trailing
newline. -/
def rustLinesAux : List String → List String
  | [] => []
  | [last] => if last = "" then [] else [last]
  | piece :: rest =>
      (if piece.endsWith "\r" then piece.dropRight 1 else piece) :: rustLinesAux rest

/-- Rust `str::lines` applied to a whole string. -/
def rustLines (s : String) : List String := rustLinesAux (s.splitOn "\n")

/-! ## Report data model (`src/reports.rs`) -/

/-- `CheckReport`: one assertion result (reports.rs:138-144). -/
structure CheckReport where
  name : String
  success : Bool
  failure : Option String
  location : String
deriving DecidableEq

/-- `TestReport`: one named test (reports.rs:130-135). -/
structure TestReport where
  success : Bool
  path : List String
  location : String
  checks : List CheckReport
deriving DecidableEq

/-- `TestFileCompletedReport` (reports.rs:112-118).  In the Rust struct the
`file` and `elapsed` fields carry `#[serde(skip_deserializing, default)]`. -/
structure TestFileCompletedReport where
  tests : List TestReport
  file : String
  elapsed : Nat
deriving DecidableEq

/-- `TestFileErroredReport` (reports.rs:147-151). -/
structure TestFileErroredReport where
  file : String
  error : String
  elapsed : Nat
deriving DecidableEq

/-- `TestFileTimedOutReport` (reports.rs:154-158). -/
structure TestFileTimedOutReport where
  file : String
  timeout : Nat
  elapsed : Nat
deriving DecidableEq

/-- `TestFileReport` (reports.rs:105-109). -/
inductive TestFileReport where
  | Completed (r : TestFileCompletedReport)
  | Errored (r : TestFileErroredReport)
  | TimedOut (r : TestFileTimedOutReport)
deriving DecidableEq

/-- `TestFileCompletedReport::failed_count` (reports.rs:121-126): total number
of failed checks across all tests of the file. -/
def TestFileCompletedReport.failed_count (r : TestFileCompletedReport) : Nat :=
  (r.tests.map (fun t => (t.checks.filter (fun c => !c.success)).length)).sum

/-- `TestSuiteReport` (reports.rs:47-50). -/
structure TestSuiteReport where
  reports : List TestFileReport
  elapsed : Nat
deriving DecidableEq

/-- `TestSuiteReport::processed_files` (reports.rs:56-58). -/
def TestSuiteReport.processed_files (s : TestSuiteReport) : Nat := s.reports.length

/-- `TestSuiteReport::succeeded_files` (reports.rs:59-68). -/
def TestSuiteReport.succeeded_files (s : TestSuiteReport) : Nat :=
  (s.reports.filter (fun r => match r with
    | .Completed r => r.failed_count == 0
    | .Errored _ => false
    | .TimedOut _ => false)).length

/-- `TestSuiteReport::failed_files` (reports.rs:69-78). -/
def TestSuiteReport.failed_files (s : TestSuiteReport) : Nat :=
  (s.reports.filter (fun r => match r with
    | .Completed r => decide (r.failed_count > 0)
    | .Errored _ => false
    | .TimedOut _ => false)).length

/-- `TestSuiteReport::errored_files` (reports.rs:79-84). -/
def TestSuiteReport.errored_files (s : TestSuiteReport) : Nat :=
  (s.reports.filter (fun r => match r with
    | .Errored _ => true
    | _ => false)).length

/-- `TestSuiteReport::timed_out_files` (reports.rs:85-90). -/
def TestSuiteReport.timed_out_files (s : TestSuiteReport) : Nat :=
  (s.reports.filter (fun r => match r with
    | .TimedOut _ => true
    | _ => false)).length

/-- `TestSuiteReport::total_elapsed` (reports.rs:91-93). -/
def TestSuiteReport.total_elapsed (s : TestSuiteReport) : Nat := s.elapsed

/-- `TestSuiteReport::has_issues` (reports.rs:94-100). -/
def TestSuiteReport.has_issues (s : TestSuiteReport) : Bool :=
  s.reports.any (fun report => match report with
    | .Completed report => decide (report.failed_count > 0)
    | .Errored _ => true
    | .TimedOut _ => true)

/-! ## Report configuration (`src/reports.rs`, module `config`) -/

/-- `reports::config::Format` (reports.rs:37-43). -/
inductive Format where
  | Human
  | Json
deriving DecidableEq

/-- `reports::config::Config` (reports.rs:10-24). -/
structure Config where
  format : Format
  hide_succeeded : Bool
  hide_failed : Bool
  hide_errored : Bool
deriving DecidableEq

/-- `Config::should_hide_test_report` (reports.rs:27-34). -/
def Config.should_hide_test_report (c : Config) (report : TestFileReport) : Bool :=
  match report with
  | .Completed r => if r.failed_count == 0 then c.hide_succeeded else c.hide_failed
  | .Errored _ => c.hide_errored
  | .TimedOut _ => c.hide_errored

/-- `ReportEvent` (reports.rs:162-167). -/
inductive ReportEvent where
  | TestFileNotFound (path : String)
  | TestFileInvalid (path : String)
  | TestFileCompleted (report : TestFileReport)
  | TestSuiteCompleted (report : TestSuiteReport)

/-! ## JSON values and the serde (de)serialization of reports

`JsonReporter` serializes a `TestFileReport` with `serde_json::to_string`.
The JSON document is modelled as an abstract syntax tree (`JsonVal`); the
derived serde `Serialize`/`Deserialize` instances are modelled as functions
to and from that tree, and the concrete text is produced by a printer
(`serde_json::to_string` and `from_str` are mutually inverse between text
and tree). -/

/-- A JSON value.  Object fields keep their order, as serde emits them. -/
inductive JsonVal where
  | jstr (s : String)
  | jnum (n : Nat)
  | jbool (b : Bool)
  | jnull
  | jarr (elems : List JsonVal)
  | jobj (fields : List (String × JsonVal))

/-- serde string escaping: quote, backslash, and control characters. -/
def escapeChar (c : Char) : String :=
  if c = '\"' then "\\\""
  else if c = '\\' then "\\\\"
  else if c = Char.ofNat 8 then "\\b"
  else if c = Char.ofNat 12 then "\\f"
  else if c = '\n' then "\\n"
  else if c = Char.ofNat 13 then "\\r"
  else if c = '\t' then "\\t"
  else if decide (c.toNat < 32) then
    let hexDigit (n : Nat) : String :=
      (String.mk [(("0123456789abcdef".data).getD n '0')])
    "\\u00" ++ hexDigit (c.toNat / 16) ++ hexDigit (c.toNat % 16)
  else String.mk [c]

/-- serde escaping of a whole string body. -/
def escapeString (s : String) : String := String.join (s.data.map escapeChar)

mutual

/-- `serde_json` compact printing of a JSON value. -/
def JsonVal.render : JsonVal → String
  | .jstr s => "\"" ++ escapeString s ++ "\""
  | .jnum n => toString n
  | .jbool b => if b then "true" else "false"
  | .jnull => "null"
  | .jarr xs => "[" ++ String.intercalate "," (JsonVal.renderArr xs) ++ "]"
  | .jobj fs => "\x7b" ++ String.intercalate "," (JsonVal.renderObj fs) ++ "\x7d"

/-- Printing of the elements of a JSON array. -/
def JsonVal.renderArr : List JsonVal → List String
  | [] => []
  | x :: xs => JsonVal.render x :: JsonVal.renderArr xs

/-- Printing of the fields of a JSON object. -/
def JsonVal.renderObj : List (String × JsonVal) → List String
  | [] => []
  | (k, v) :: fs =>
      ("\"" ++ escapeString k ++ "\":" ++ JsonVal.render v) :: JsonVal.renderObj fs

end

/-- Derived `Serialize` for `CheckReport` (reports.rs:137-144): the `failure`
field carries `skip_serializing_if = "Option::is_none"`. -/
def CheckReport.toJson (c : CheckReport) : JsonVal :=
  .jobj ([("name", .jstr c.name), ("success", .jbool c.success)] ++
    (match c.failure with
     | none => []
     | some f => [("failure", .jstr f)]) ++
    [("location", .jstr c.location)])

/-- Derived `Serialize` for `TestReport` (reports.rs:129-135). -/
def TestReport.toJson (t : TestReport) : JsonVal :=
  .jobj [("success", .jbool t.success),
         ("path", .jarr (t.path.map JsonVal.jstr)),
         ("location", .jstr t.location),
         ("checks", .jarr (t.checks.map CheckReport.toJson))]

/-- Derived `Serialize` for `TestFileReport` (reports.rs:103-109): internally
tagged with `tag = "status"`, variant names in `snake_case`, the fields of the
variant payload inlined after the tag. -/
def TestFileReport.toJson : TestFileReport → JsonVal
  | .Completed r =>
      .jobj [("status", .jstr "completed"),
             ("tests", .jarr (r.tests.map TestReport.toJson)),
             ("file", .jstr r.file),
             ("elapsed", .jnum r.elapsed)]
  | .Errored r =>
      .jobj [("status", .jstr "errored"),
             ("file", .jstr r.file),
             ("error", .jstr r.error),
             ("elapsed", .jnum r.elapsed)]
  | .TimedOut r =>
      .jobj [("status", .jstr "timed_out"),
             ("file", .jstr r.file),
             ("timeout", .jnum r.timeout),
             ("elapsed", .jnum r.elapsed)]

/-- Field lookup in a JSON object (first match, as serde sees the fields). -/
def JsonVal.getField : JsonVal → String → Option JsonVal
  | .jobj fields, key => fields.lookup key
  | _, _ => none

/-- A JSON value expected to be a string. -/
def JsonVal.asString : JsonVal → Option String
  | .jstr s => some s
  | _ => none

/-- A JSON value expected to be a boolean. -/
def JsonVal.asBool : JsonVal → Option Bool
  | .jbool b => some b
  | _ => none

/-- A JSON value expected to be an array. -/
def JsonVal.asArr : JsonVal → Option (List JsonVal)
  | .jarr xs => some xs
  | _ => none

/-- Deserialize every element of a JSON array, failing if any element fails
(serde sequence deserialization). -/
def parseAll {α : Type} (f : JsonVal → Option α) : List JsonVal → Option (List α)
  | [] => some []
  | x :: xs =>
      match f x with
      | none => none
      | some a =>
          match parseAll f xs with
          | none => none
          | some as => some (a :: as)

/-- Derived `Deserialize` for `CheckReport` (reports.rs:137-144): `failure`
is an `Option`, so a missing or null field becomes `none`. -/
def CheckReport.fromJson (j : JsonVal) : Option CheckReport := do
  let name ← (j.getField "name").bind JsonVal.asString
  let success ← (j.getField "success").bind JsonVal.asBool
  let failure ←
    match j.getField "failure" with
    | none => some none
    | some .jnull => some none
    | some (.jstr s) => some (some s)
    | some _ => none
  let location ← (j.getField "location").bind JsonVal.asString
  some ⟨name, success, failure, location⟩

/-- Derived `Deserialize` for `TestReport` (reports.rs:129-135). -/
def TestReport.fromJson (j : JsonVal) : Option TestReport := do
  let success ← (j.getField "success").bind JsonVal.asBool
  let path ← (j.getField "path").bind JsonVal.asArr
  let path ← parseAll JsonVal.asString path
  let location ← (j.getField "location").bind JsonVal.asString
  let checks ← (j.getField "checks").bind JsonVal.asArr
  let checks ← parseAll CheckReport.fromJson checks
  some ⟨success, path, location, checks⟩

/-- Derived `Deserialize` for `TestFileCompletedReport` (reports.rs:111-118):
`file` and `elapsed` carry `#[serde(skip_deserializing, default)]`, so they
are never read from the document and take their default values; unknown
fields (such as the `status` tag) are ignored. -/
def TestFileCompletedReport.fromJson (j : JsonVal) : Option TestFileCompletedReport := do
  let tests ← (j.getField "tests").bind JsonVal.asArr
  let tests ← parseAll TestReport.fromJson tests
  some ⟨tests, "", 0⟩

/-! ## Reporters (`src/reports.rs`) -/

/-- `JsonReporter::on` (reports.rs:184-196): only `TestFileCompleted` events
are rendered, subject to the visibility rule; every other event yields no
message. -/
def JsonReporter.on (config : Config) (report_event : ReportEvent) : Option String :=
  match report_event with
  | .TestFileCompleted report =>
      if config.should_hide_test_report report then none
      else some (JsonVal.render report.toJson)
  | _ => none

/-- The body of the per-check loop of `HumanReporter::format_report`
(reports.rs:217-232). -/
def format_check (path : String) (check : CheckReport) : String :=
  if check.success then
    "✓ " ++ path ++ " -> " ++ check.name ++ "\n"
  else
    "✗ " ++ path ++ " -> " ++ check.name ++ "\n" ++
    (match check.failure with
     | some failure =>
         "    Failure:\n" ++
         String.join ((rustLines failure).map (fun line => "      " ++ line ++ "\n")) ++
         "      at " ++ check.location ++ "\n"
     | none => "    Failed at " ++ check.location ++ "\n")

/-- The body of the per-test loop of `HumanReporter::format_report`
(reports.rs:214-233): the test path joined by " -> ", then each check. -/
def format_test (test : TestReport) : String :=
  String.join (test.checks.map (format_check (String.intercalate " -> " test.path)))

/-- `HumanReporter::format_report` (reports.rs:207-252). -/
def format_report : TestFileReport → String
  | .Completed report =>
      "File: " ++ report.file ++ " (" ++ toString report.elapsed ++ "ms)\n" ++
      String.join (report.tests.map format_test) ++
      (if report.failed_count > 0 then
        "FAILED (" ++ toString report.failed_count ++ " failed)\n"
      else "") ++ "\n"
  | .Errored report =>
      "File: " ++ report.file ++ " (" ++ toString report.elapsed ++ "ms)\n" ++
      "ERROR: " ++ report.error ++ "\n"
  | .TimedOut report =>
      "File: " ++ report.file ++ " (" ++ toString report.elapsed ++ "ms)\n" ++
      "TIMEOUT: Exceeded " ++ toString report.timeout ++ "ms limit\n" ++ "\n"

/-- The `TestSuiteCompleted` branch of `HumanReporter::on` (reports.rs:271-301). -/
def suite_summary_message (report : TestSuiteReport) : String :=
  if report.processed_files == 0 then
    "No test files found\n"
  else if report.failed_files == 0 && report.errored_files == 0
      && report.timed_out_files == 0 then
    "All tests passed (" ++ toString report.total_elapsed ++ "ms)\n"
  else
    toString report.succeeded_files ++ " file(s) succeeded\n" ++
    (if report.errored_files > 0 then
      toString report.errored_files ++ " file(s) had errors\n"
    else "") ++
    (if report.failed_files > 0 then
      toString report.failed_files ++ " file(s) failed\n"
    else "") ++
    (if report.timed_out_files > 0 then
      toString report.timed_out_files ++ " file(s) timed out\n"
    else "") ++
    "Total time: " ++ toString report.total_elapsed ++ "ms\n"

/-- `HumanReporter::on` (reports.rs:255-304). -/
def HumanReporter.on (config : Config) (report_event : ReportEvent) : Option String :=
  match report_event with
  | .TestFileNotFound path =>
      some ("Warning: \x27" ++ path ++ "\x27 is not found, skipping.\n")
  | .TestFileInvalid path =>
      some ("Warning: \x27" ++ path ++ "\x27 is not a test file, skipping.\n")
  | .TestFileCompleted report =>
      if config.should_hide_test_report report then none
      else some (format_report report)
  | .TestSuiteCompleted report => some (suite_summary_message report)

/-- `ConfigurableReporter` (reports.rs:306-324): dispatches to the human or
JSON reporter according to `Config.format`. -/
def ConfigurableReporter.on (config : Config) (report_event : ReportEvent) : Option String :=
  match config.format with
  | .Human => HumanReporter.on config report_event
  | .Json => JsonReporter.on config report_event

/-! ## File classification (`src/files.rs`) -/

/-- `TestFile` (files.rs:5-10). -/
inductive TestFile where
  | Valid (f : String)
  | NotFound (f : String)
  | Invalid (f : String)
deriving DecidableEq

/-- `TestFile::rank` (files.rs:13-19). -/
def TestFile.rank : TestFile → Nat
  | .Valid _ => 2
  | .NotFound _ => 1
  | .Invalid _ => 0

/-- `TestFile::name` (files.rs:20-24). -/
def TestFile.name : TestFile → String
  | .Valid f => f
  | .NotFound f => f
  | .Invalid f => f

/-- `Ord for TestFile` (files.rs:27-33) as a boolean "less or equal":
rank first, then the path, so `cmp a b ≠ Greater`. -/
def tfLe (a b : TestFile) : Bool :=
  decide (a.rank < b.rank) || (a.rank == b.rank && !(strLt b.name a.name))

/-- `PartialEq for TestFile` (files.rs:41-45): equal rank and equal name. -/
def tfBeq (a b : TestFile) : Bool :=
  a.rank == b.rank && a.name == b.name

/-- `Vec::dedup` (files.rs:79): remove elements equal (under `PartialEq`) to
the last kept element, keeping the first of each run. -/
def vecDedup : List TestFile → List TestFile
  | [] => []
  | [a] => [a]
  | a :: b :: rest =>
      if tfBeq a b then vecDedup (a :: rest) else a :: vecDedup (b :: rest)
termination_by l => l.length

/-- The filesystem and directory-discovery collaborators consumed by
`SearchTestFiles::search_test_files` (files.rs:47-82): `Path::exists`,
`Path::is_file`, and `find_files_in_dir` (the discovery call boundary). -/
structure FileSystem where
  pathExists : String → Bool
  isFile : String → Bool
  find_files_in_dir : String → List String

/-- The body of the per-input loop of `search_test_files` (files.rs:56-76):
a nonexistent path is `NotFound`; an existing plain file is `Valid` when its
path ends with `"_test.nix"` and `Invalid` otherwise; a directory expands to
one `Valid` entry per discovered path. -/
def classify_path (fs : FileSystem) (file : String) : List TestFile :=
  if !(fs.pathExists file) then [TestFile.NotFound file]
  else if fs.isFile file then
    if ends_with file "_test.nix" then [TestFile.Valid file]
    else [TestFile.Invalid file]
  else (fs.find_files_in_dir file).map TestFile.Valid

/-- `SearchTestFiles::search_test_files` (files.rs:53-82): classify every
input in order, then `sort` (stable, by `Ord for TestFile`) and `dedup`. -/
def search_test_files (fs : FileSystem) (files : List String) : List TestFile :=
  vecDedup ((files.flatMap (classify_path fs)).mergeSort tfLe)

/-! ## Process exit code (`src/main.rs`) -/

/-- The exit-code logic of `main` (main.rs:162-173): exit 1 when the suite
report has issues, otherwise fall through to `Ok(())`, which exits 0. -/
def process_exit_code (report : TestSuiteReport) : Nat :=
  if report.has_issues then 1 else 0

/-! ## The evaluator payload (modelled from the spec) -/

/-- Modelled from the spec: the external nix-tests evaluator library (the Nix
code invoked through `nix-instantiate` in `NixTestRunner::run`, runners.rs:
88-148, which is not under `src/`) produces, for each named test, a record
whose `success` boolean is "derived as AND of its checks" (spec §3,
TestOutcome).  The runner deserializes these records verbatim. -/
def evaluator_test_report (path : List String) (location : String)
    (checks : List CheckReport) : TestReport :=
  { success := checks.all (fun c => c.success),
    path := path,
    location := location,
    checks := checks }

/-- A completed file report as built by `NixTestRunner::run` (runners.rs:
143-147) from the evaluator payload: one `evaluator_test_report` per raw
test record, together with the file name and elapsed time. -/
def evaluator_completed_report (file : String) (elapsed : Nat)
    (raw : List (List String × String × List CheckReport)) : TestFileCompletedReport :=
  { tests := raw.map (fun r => evaluator_test_report r.1 r.2.1 r.2.2),
    file := file,
    elapsed := elapsed }

/-! ## Order-theoretic facts about the modelled string comparison -/

theorem charListLt_asymm : ∀ a b : List Char, charListLt a b = true → charListLt b a = false := by
  intro a
  induction a with
  | nil => intro b h; cases b <;> simp_all [charListLt]
  | cons x xs ih =>
    intro b h
    cases b with
    | nil => simp [charListLt] at h
    | cons y ys =>
      simp only [charListLt] at h ⊢
      by_cases hxy : x < y
      · simp [hxy, asymm hxy]
      · by_cases hyx : y < x
        · simp [hxy, hyx] at h
        · simp only [hxy, hyx, if_false] at h ⊢
          exact ih ys h

theorem charListLt_irrefl (a : List Char) : charListLt a a = false := by
  by_cases h : charListLt a a = true
  · have := charListLt_asymm a a h
    rw [this] at h
    exact absurd h (by simp)
  · simpa using h

theorem charListLt_eq_of_both_not :
    ∀ a b : List Char, charListLt a b = false → charListLt b a = false → a = b := by
  intro a
  induction a with
  | nil =>
    intro b h1 _
    cases b with
    | nil => rfl
    | cons y ys => simp [charListLt] at h1
  | cons x xs ih =>
    intro b h1 h2
    cases b with
    | nil => simp [charListLt] at h2
    | cons y ys =>
      simp only [charListLt] at h1 h2
      by_cases hxy : x < y
      · simp [hxy] at h1
      · by_cases hyx : y < x
        · simp [hyx, asymm hyx] at h2
        · have hxy' : x = y := le_antisymm (not_lt.1 hyx) (not_lt.1 hxy)
          subst hxy'
          simp only [lt_irrefl, if_false] at h1 h2
          rw [ih ys h1 h2]

theorem charListLt_trans :
    ∀ a b c : List Char, charListLt a b = true → charListLt b c = true → charListLt a c = true := by
  intro a
  induction a with
  | nil =>
    intro b c h1 h2
    cases c with
    | nil => cases b <;> simp_all [charListLt]
    | cons z zs => simp [charListLt]
  | cons x xs ih =>
    intro b c h1 h2
    cases b with
    | nil => simp [charListLt] at h1
    | cons y ys =>
      cases c with
      | nil => simp [charListLt] at h2
      | cons z zs =>
        simp only [charListLt] at h1 h2 ⊢
        rcases lt_trichotomy x y with hxy | hxy | hxy
        · rcases lt_trichotomy y z with hyz | hyz | hyz
          · simp [lt_trans hxy hyz]
          · subst hyz; simp [hxy]
          · simp [asymm hyz, hyz] at h2
        · subst hxy
          rcases lt_trichotomy x z with hxz | hxz | hxz
          · simp [hxz]
          · subst hxz
            simp only [lt_irrefl, if_false] at h1 h2 ⊢
            exact ih ys zs h1 h2
          · simp [asymm hxz, hxz] at h2
        · simp [asymm hxy, hxy] at h1

theorem strLt_asymm (a b : String) (h : strLt a b = true) : strLt b a = false :=
  charListLt_asymm a.data b.data h

theorem strLt_eq_of_both_not (a b : String) (h1 : strLt a b = false)
    (h2 : strLt b a = false) : a = b :=
  String.ext (charListLt_eq_of_both_not a.data b.data h1 h2)

theorem strLt_false_trans (x y z : String) (h1 : strLt x y = false)
    (h2 : strLt y z = false) : strLt x z = false := by
  by_contra hc
  have hxz : strLt x z = true := by simpa using hc
  by_cases hyx : strLt y x = true
  · have : strLt y z = true := charListLt_trans _ _ _ hyx hxz
    rw [this] at h2; exact absurd h2 (by simp)
  · have hyx' : strLt y x = false := by simpa using hyx
    have : x = y := strLt_eq_of_both_not x y h1 hyx'
    subst this
    rw [hxz] at h2; exact absurd h2 (by simp)

/-! ## Order-theoretic facts about the `TestFile` ordering -/

theorem TestFile.eq_of_rank_name :
    ∀ a b : TestFile, a.rank = b.rank → a.name = b.name → a = b := by
  intro a b h1 h2
  cases a <;> cases b <;> simp_all [TestFile.rank, TestFile.name]

theorem tfBeq_iff (a b : TestFile) : tfBeq a b = true ↔ a = b := by
  constructor
  · intro h
    simp only [tfBeq, Bool.and_eq_true, beq_iff_eq] at h
    exact TestFile.eq_of_rank_name a b h.1 h.2
  · rintro rfl
    simp [tfBeq]

theorem tfLe_total (a b : TestFile) : (tfLe a b || tfLe b a) = true := by
  simp only [tfLe, Bool.or_eq_true, decide_eq_true_eq, Bool.and_eq_true, beq_iff_eq,
    Bool.not_eq_true']
  rcases Nat.lt_trichotomy a.rank b.rank with h | h | h
  · exact Or.inl (Or.inl h)
  · by_cases hs : strLt b.name a.name = true
    · exact Or.inr (Or.inr ⟨h.symm, strLt_asymm _ _ hs⟩)
    · exact Or.inl (Or.inr ⟨h, by simpa using hs⟩)
  · exact Or.inr (Or.inl h)

theorem tfLe_trans (a b c : TestFile) (h1 : tfLe a b = true) (h2 : tfLe b c = true) :
    tfLe a c = true := by
  simp only [tfLe, Bool.or_eq_true, decide_eq_true_eq, Bool.and_eq_true, beq_iff_eq,
    Bool.not_eq_true'] at h1 h2 ⊢
  rcases h1 with h1 | ⟨h1e, h1s⟩
  · rcases h2 with h2 | ⟨h2e, _⟩
    · exact Or.inl (lt_trans h1 h2)
    · exact Or.inl (h2e ▸ h1)
  · rcases h2 with h2 | ⟨h2e, h2s⟩
    · exact Or.inl (h1e ▸ h2)
    · exact Or.inr ⟨h1e.trans h2e, strLt_false_trans _ _ _ h2s h1s⟩

theorem tfLe_antisymm (a b : TestFile) (h1 : tfLe a b = true) (h2 : tfLe b a = true) :
    a = b := by
  simp only [tfLe, Bool.or_eq_true, decide_eq_true_eq, Bool.and_eq_true, beq_iff_eq,
    Bool.not_eq_true'] at h1 h2
  rcases h1 with h1 | ⟨h1e, h1s⟩
  · rcases h2 with h2 | ⟨h2e, _⟩
    · exact absurd (lt_trans h1 h2) (lt_irrefl _)
    · exact absurd h1 (h2e ▸ lt_irrefl _)
  · rcases h2 with h2 | ⟨h2e, h2s⟩
    · exact absurd h2 (h1e ▸ lt_irrefl _)
    · exact TestFile.eq_of_rank_name a b h1e (strLt_eq_of_both_not _ _ h2s h1s)

theorem tfSlt_of_le_ne (a b : TestFile) (h : tfLe a b = true) (hne : a ≠ b) :
    a.rank < b.rank ∨ (a.rank = b.rank ∧ strLt a.name b.name = true) := by
  simp only [tfLe, Bool.or_eq_true, decide_eq_true_eq, Bool.and_eq_true, beq_iff_eq,
    Bool.not_eq_true'] at h
  rcases h with h | ⟨he, hs⟩
  · exact Or.inl h
  · refine Or.inr ⟨he, ?_⟩
    by_contra hc
    have hc' : strLt a.name b.name = false := by simpa using hc
    exact hne (TestFile.eq_of_rank_name a b he (strLt_eq_of_both_not _ _ hc' hs))

/-! ## Facts about `Vec::dedup` on sorted lists -/

theorem vecDedup_sublist : ∀ l : List TestFile, (vecDedup l).Sublist l := by
  intro l
  induction l using vecDedup.induct with
  | case1 => simp [vecDedup]
  | case2 a => simp [vecDedup]
  | case3 a b rest h ih =>
    rw [vecDedup, if_pos h]
    exact ih.trans (List.Sublist.cons₂ a (List.sublist_cons_self b rest))
  | case4 a b rest h ih =>
    rw [vecDedup, if_neg h]
    exact List.Sublist.cons₂ a ih

theorem vecDedup_pairwise :
    ∀ l : List TestFile, l.Pairwise (fun a b => tfLe a b = true) →
      (vecDedup l).Pairwise
        (fun a b => a.rank < b.rank ∨ (a.rank = b.rank ∧ strLt a.name b.name = true)) := by
  intro l
  induction l using vecDedup.induct with
  | case1 => intro _; simp [vecDedup]
  | case2 a => intro _; simp [vecDedup]
  | case3 a b rest h ih =>
    intro hp
    rw [vecDedup, if_pos h]
    have hab : a = b := (tfBeq_iff a b).1 h
    subst hab
    rcases List.pairwise_cons.1 hp with ⟨h1, h2⟩
    rcases List.pairwise_cons.1 h2 with ⟨_, h4⟩
    exact ih (List.pairwise_cons.2
      ⟨fun x hx => h1 x (List.mem_cons_of_mem _ hx), h4⟩)
  | case4 a b rest h ih =>
    intro hp
    rcases List.pairwise_cons.1 hp with ⟨h1, h2⟩
    rw [vecDedup, if_neg h]
    refine List.pairwise_cons.2 ⟨?_, ih h2⟩
    intro x hx
    have hxmem : x ∈ b :: rest := (vecDedup_sublist (b :: rest)).subset hx
    have hle : tfLe a x = true := h1 x hxmem
    have hne : a ≠ x := by
      intro heq
      rcases List.mem_cons.1 hxmem with heqb | hxr
      · exact h ((tfBeq_iff a b).2 (heq.trans heqb))
      · have hbx : tfLe b x = true := (List.pairwise_cons.1 h2).1 x hxr
        have hab : tfLe a b = true := h1 b (List.mem_cons_self b rest)
        have hba : tfLe b a = true := heq ▸ hbx
        exact h ((tfBeq_iff a b).2 (tfLe_antisymm a b hab hba))
    exact tfSlt_of_le_ne a x hle hne

/-! ## Claims -/

/-- Claim C1: for every list of file outcomes, `TestSuiteReport.has_issues`
is true iff at least one outcome is `Errored`, `TimedOut`, or `Completed`
with at least one failed check; in particular it is false for the empty
outcome list. -/
theorem has_issues_iff_exists_issue (s : TestSuiteReport) :
    (s.has_issues = true ↔ ∃ r ∈ s.reports, match r with
      | TestFileReport.Completed c => 0 < c.failed_count
      | TestFileReport.Errored _ => True
      | TestFileReport.TimedOut _ => True) ∧
    (∀ e, TestSuiteReport.has_issues ⟨[], e⟩ = false) := by
  constructor
  · rw [TestSuiteReport.has_issues, List.any_eq_true]
    constructor
    · rintro ⟨r, hr, hf⟩
      refine ⟨r, hr, ?_⟩
      cases r <;> simp_all
    · rintro ⟨r, hr, hf⟩
      refine ⟨r, hr, ?_⟩
      cases r <;> simp_all
  · intro e; rfl

/-- Claim C2: the process exit code of a completed run is 0 when the suite
report has no issues and 1 otherwise (`main`, main.rs:162-173). -/
theorem exit_code_zero_iff_no_issues (s : TestSuiteReport) :
    (s.has_issues = false → process_exit_code s = 0) ∧
    (s.has_issues = true → process_exit_code s = 1) := by
  constructor <;> intro h <;> simp [process_exit_code, h]

/-- Witness for C2: a run with no outcomes exits 0; a run with an errored
outcome exits 1. -/
theorem exit_code_zero_iff_no_issues_witness :
    (TestSuiteReport.has_issues ⟨[], 0⟩ = false ∧ process_exit_code ⟨[], 0⟩ = 0) ∧
    (TestSuiteReport.has_issues ⟨[TestFileReport.Errored ⟨"f.nix", "boom", 3⟩], 3⟩ = true ∧
      process_exit_code ⟨[TestFileReport.Errored ⟨"f.nix", "boom", 3⟩], 3⟩ = 1) :=
  ⟨⟨by decide, (exit_code_zero_iff_no_issues ⟨[], 0⟩).1 (by decide)⟩,
   ⟨by decide, (exit_code_zero_iff_no_issues ⟨[TestFileReport.Errored ⟨"f.nix", "boom", 3⟩], 3⟩).2
      (by decide)⟩⟩

/-- Claim C6: for every filesystem and every input path list, the classifier
output is sorted with `Invalid` (rank 0) before `NotFound` (rank 1) before
`Valid` (rank 2), lexicographically by path within equal rank, and contains
no duplicate (kind, path) pairs. -/
theorem search_output_sorted_and_nodup (fs : FileSystem) (files : List String) :
    (search_test_files fs files).Pairwise
      (fun a b => a.rank < b.rank ∨ (a.rank = b.rank ∧ strLt a.name b.name = true)) ∧
    (search_test_files fs files).Pairwise
      (fun a b => ¬ (a.rank = b.rank ∧ a.name = b.name)) := by
  have hsorted :=
    @List.sorted_mergeSort TestFile tfLe tfLe_trans tfLe_total (files.flatMap (classify_path fs))
  have hd := vecDedup_pairwise _ hsorted
  refine ⟨hd, hd.imp ?_⟩
  rintro a b (hlt | ⟨heq, hlt⟩) ⟨hrank, hname⟩
  · exact absurd hrank (Nat.ne_of_lt hlt)
  · rw [hname] at hlt
    rw [show strLt b.name b.name = false from charListLt_irrefl _] at hlt
    exact absurd hlt (by simp)

/-- Counterexample for C3: in the JSON format the run-level summary event
produces no message at all (`JsonReporter::on` handles only
`TestFileCompleted`), refuting the claim that every report configuration
renders `SuiteCompleted` to a message. -/
theorem suite_completed_json_yields_no_message :
    ConfigurableReporter.on ⟨Format.Json, false, false, false⟩
      (ReportEvent.TestSuiteCompleted ⟨[], 0⟩) = none := rfl

/-- Claim C3 (amended): the hide flags never affect a `SuiteCompleted` event:
the human reporter always renders it to a message, while the JSON reporter
never produces a message for it, in both cases for every hide-flag
assignment. -/
theorem suite_completed_rendering (cfg : Config) (s : TestSuiteReport) :
    (cfg.format = Format.Human →
      (ConfigurableReporter.on cfg (ReportEvent.TestSuiteCompleted s)).isSome = true) ∧
    (cfg.format = Format.Json →
      ConfigurableReporter.on cfg (ReportEvent.TestSuiteCompleted s) = none) := by
  constructor <;> intro h <;>
    simp [ConfigurableReporter.on, h, HumanReporter.on, JsonReporter.on]

/-- Witness for C3: both format hypotheses discharged at concrete
configurations with every hide flag set. -/
theorem suite_completed_rendering_witness :
    ((⟨Format.Human, true, true, true⟩ : Config).format = Format.Human ∧
      (ConfigurableReporter.on ⟨Format.Human, true, true, true⟩
        (ReportEvent.TestSuiteCompleted ⟨[], 0⟩)).isSome = true) ∧
    ((⟨Format.Json, true, true, true⟩ : Config).format = Format.Json ∧
      ConfigurableReporter.on ⟨Format.Json, true, true, true⟩
        (ReportEvent.TestSuiteCompleted ⟨[], 0⟩) = none) :=
  ⟨⟨rfl, (suite_completed_rendering ⟨Format.Human, true, true, true⟩ ⟨[], 0⟩).1 rfl⟩,
   ⟨rfl, (suite_completed_rendering ⟨Format.Json, true, true, true⟩ ⟨[], 0⟩).2 rfl⟩⟩

/-- Counterexample for C5: in the JSON format a `FileNotFound` event produces
no message, refuting the claim that every report configuration renders it as
a warning. -/
theorem file_not_found_json_yields_no_message :
    ConfigurableReporter.on ⟨Format.Json, false, false, false⟩
      (ReportEvent.TestFileNotFound "missing.nix") = none := rfl

/-- Claim C5 (amended): the human reporter always renders `FileNotFound` and
`FileInvalid` events as warning messages, for every hide-flag assignment;
the JSON reporter produces no message for them. -/
theorem warning_events_rendering (cfg : Config) (p : String) :
    (cfg.format = Format.Human →
      ConfigurableReporter.on cfg (ReportEvent.TestFileNotFound p) =
        some ("Warning: \x27" ++ p ++ "\x27 is not found, skipping.\n") ∧
      ConfigurableReporter.on cfg (ReportEvent.TestFileInvalid p) =
        some ("Warning: \x27" ++ p ++ "\x27 is not a test file, skipping.\n")) ∧
    (cfg.format = Format.Json →
      ConfigurableReporter.on cfg (ReportEvent.TestFileNotFound p) = none ∧
      ConfigurableReporter.on cfg (ReportEvent.TestFileInvalid p) = none) := by
  constructor <;> intro h <;>
    exact ⟨by simp [ConfigurableReporter.on, h, HumanReporter.on, JsonReporter.on],
           by simp [ConfigurableReporter.on, h, HumanReporter.on, JsonReporter.on]⟩

/-- Witness for C5: both format hypotheses discharged at concrete
configurations with every hide flag set. -/
theorem warning_events_rendering_witness :
    ((⟨Format.Human, true, true, true⟩ : Config).format = Format.Human ∧
      ConfigurableReporter.on ⟨Format.Human, true, true, true⟩
        (ReportEvent.TestFileNotFound "m.nix") =
        some ("Warning: \x27m.nix\x27 is not found, skipping.\n")) ∧
    ((⟨Format.Json, true, true, true⟩ : Config).format = Format.Json ∧
      ConfigurableReporter.on ⟨Format.Json, true, true, true⟩
        (ReportEvent.TestFileNotFound "m.nix") = none) :=
  ⟨⟨rfl, ((warning_events_rendering ⟨Format.Human, true, true, true⟩ "m.nix").1 rfl).1⟩,
   ⟨rfl, ((warning_events_rendering ⟨Format.Json, true, true, true⟩ "m.nix").2 rfl).1⟩⟩

/-- Claim C8: for both reporters and every configuration, a `FileCompleted`
event is suppressed (renders to no message) exactly as the visibility rule
says: a `Completed` outcome with zero failed checks iff `hide_succeeded`, a
`Completed` outcome with at least one failed check iff `hide_failed`, and
`Errored`/`TimedOut` outcomes iff `hide_errored`. -/
theorem file_completed_visibility (cfg : Config) (r : TestFileReport) :
    ((HumanReporter.on cfg (ReportEvent.TestFileCompleted r) = none) ↔
      (match r with
        | TestFileReport.Completed c =>
            if c.failed_count = 0 then cfg.hide_succeeded = true else cfg.hide_failed = true
        | TestFileReport.Errored _ => cfg.hide_errored = true
        | TestFileReport.TimedOut _ => cfg.hide_errored = true)) ∧
    ((JsonReporter.on cfg (ReportEvent.TestFileCompleted r) = none) ↔
      (match r with
        | TestFileReport.Completed c =>
            if c.failed_count = 0 then cfg.hide_succeeded = true else cfg.hide_failed = true
        | TestFileReport.Errored _ => cfg.hide_errored = true
        | TestFileReport.TimedOut _ => cfg.hide_errored = true)) := by
  have hmatch : (cfg.should_hide_test_report r = true) ↔
      (match r with
        | TestFileReport.Completed c =>
            if c.failed_count = 0 then cfg.hide_succeeded = true else cfg.hide_failed = true
        | TestFileReport.Errored _ => cfg.hide_errored = true
        | TestFileReport.TimedOut _ => cfg.hide_errored = true) := by
    cases r with
    | Completed c =>
      by_cases hc : c.failed_count = 0 <;> simp [Config.should_hide_test_report, hc]
    | Errored e => simp [Config.should_hide_test_report]
    | TimedOut t => simp [Config.should_hide_test_report]
  constructor
  · rw [← hmatch]
    cases hsh : cfg.should_hide_test_report r <;> simp [HumanReporter.on, hsh]
  · rw [← hmatch]
    cases hsh : cfg.should_hide_test_report r <;> simp [JsonReporter.on, hsh]

/-- Claim C7: a single-file input that exists is classified `Valid` exactly
when its path ends with the `"_test.nix"` suffix and `Invalid` otherwise;
a nonexistent input is classified `NotFound`. -/
theorem single_file_classification (fs : FileSystem) (p : String) :
    (fs.pathExists p = true → fs.isFile p = true →
      search_test_files fs [p] =
        if ends_with p "_test.nix" then [TestFile.Valid p] else [TestFile.Invalid p]) ∧
    (fs.pathExists p = false → search_test_files fs [p] = [TestFile.NotFound p]) := by
  constructor
  · intro h1 h2
    by_cases he : ends_with p "_test.nix" = true
    · simp [search_test_files, classify_path, h1, h2, he, vecDedup]
    · simp [search_test_files, classify_path, h1, h2, he, vecDedup]
  · intro h1
    simp [search_test_files, classify_path, h1, vecDedup]

/-- Witness for C7: all hypotheses discharged at concrete filesystems, for a
matching file name and for a nonexistent path. -/
theorem single_file_classification_witness :
    (FileSystem.pathExists ⟨fun s => s == "a_test.nix", fun _ => true, fun _ => []⟩
        "a_test.nix" = true ∧
      FileSystem.isFile ⟨fun s => s == "a_test.nix", fun _ => true, fun _ => []⟩
        "a_test.nix" = true ∧
      search_test_files ⟨fun s => s == "a_test.nix", fun _ => true, fun _ => []⟩
        ["a_test.nix"] =
        (if ends_with "a_test.nix" "_test.nix" then [TestFile.Valid "a_test.nix"]
         else [TestFile.Invalid "a_test.nix"])) ∧
    (FileSystem.pathExists ⟨fun _ => false, fun _ => true, fun _ => []⟩ "gone.nix" = false ∧
      search_test_files ⟨fun _ => false, fun _ => true, fun _ => []⟩ ["gone.nix"] =
        [TestFile.NotFound "gone.nix"]) :=
  ⟨⟨by decide, by decide,
    (single_file_classification ⟨fun s => s == "a_test.nix", fun _ => true, fun _ => []⟩
      "a_test.nix").1 (by decide) (by decide)⟩,
   ⟨by decide,
    (single_file_classification ⟨fun _ => false, fun _ => true, fun _ => []⟩
      "gone.nix").2 (by decide)⟩⟩

/-- Claim C10: when a directory input is expanded, every path returned by the
directory-discovery collaborator is classified `Valid` unconditionally: the
classifier result is exactly the returned list mapped to `Valid`, with no
re-check of the test-file suffix on the returned paths. -/
theorem directory_discovery_all_valid (fs : FileSystem) (dir : String)
    (hex : fs.pathExists dir = true) (hdir : fs.isFile dir = false) :
    classify_path fs dir = (fs.find_files_in_dir dir).map TestFile.Valid ∧
    ∀ p ∈ fs.find_files_in_dir dir, TestFile.Valid p ∈ classify_path fs dir := by
  have h : classify_path fs dir = (fs.find_files_in_dir dir).map TestFile.Valid := by
    simp [classify_path, hex, hdir]
  exact ⟨h, fun p hp => h ▸ List.mem_map_of_mem TestFile.Valid hp⟩

/-- Witness for C10: a directory whose discovery result does not end in
`"_test.nix"` is still marked `Valid`. -/
theorem directory_discovery_all_valid_witness :
    FileSystem.pathExists ⟨fun _ => true, fun _ => false, fun _ => ["note.txt"]⟩ "dir" = true ∧
    FileSystem.isFile ⟨fun _ => true, fun _ => false, fun _ => ["note.txt"]⟩ "dir" = false ∧
    classify_path ⟨fun _ => true, fun _ => false, fun _ => ["note.txt"]⟩ "dir" =
      [TestFile.Valid "note.txt"] :=
  ⟨rfl, rfl,
   (directory_discovery_all_valid ⟨fun _ => true, fun _ => false, fun _ => ["note.txt"]⟩
     "dir" rfl rfl).1⟩

/-! ## JSON round-trip lemmas -/

theorem checkReport_fromJson_toJson (c : CheckReport) :
    CheckReport.fromJson c.toJson = some c := by
  cases c with
  | mk name success failure location => cases failure <;> rfl

theorem parseAll_map {α : Type} (f : α → JsonVal) (g : JsonVal → Option α)
    (hfg : ∀ a, g (f a) = some a) : ∀ l : List α, parseAll g (l.map f) = some l := by
  intro l
  induction l with
  | nil => rfl
  | cons x xs ih => simp [parseAll, hfg x, ih]

theorem testReport_fromJson_toJson (t : TestReport) :
    TestReport.fromJson t.toJson = some t := by
  cases t with
  | mk success path location checks =>
    have h1 : parseAll JsonVal.asString (path.map JsonVal.jstr) = some path :=
      parseAll_map JsonVal.jstr JsonVal.asString (fun _ => rfl) path
    have h2 : parseAll CheckReport.fromJson (checks.map CheckReport.toJson) = some checks :=
      parseAll_map _ _ checkReport_fromJson_toJson checks
    simp [TestReport.fromJson, TestReport.toJson, JsonVal.getField, List.lookup,
      JsonVal.asBool, JsonVal.asArr, JsonVal.asString, h1, h2]

/-- Counterexample for C4: serializing a `Completed` outcome and
deserializing the document does not restore the original value: the `file`
and `elapsed` fields are lost. -/
theorem json_roundtrip_counterexample :
    ¬ (TestFileCompletedReport.fromJson
        (TestFileReport.toJson (TestFileReport.Completed ⟨[], "test.nix", 50⟩)) =
      some ⟨[], "test.nix", 50⟩) := by decide

/-- Claim C4 (amended): rendering a `Completed` outcome in the
machine-readable form and parsing it back preserves the `tests` field
exactly (every test and check field), but yields default values for `file`
(empty) and `elapsed` (zero), because the Rust struct skips those two fields
during deserialization. -/
theorem json_roundtrip_tests_preserved (r : TestFileCompletedReport) :
    TestFileCompletedReport.fromJson (TestFileReport.toJson (TestFileReport.Completed r)) =
      some ⟨r.tests, "", 0⟩ := by
  have h : parseAll TestReport.fromJson (r.tests.map TestReport.toJson) = some r.tests :=
    parseAll_map _ _ testReport_fromJson_toJson r.tests
  simp [TestFileReport.toJson, TestFileCompletedReport.fromJson, JsonVal.getField,
    List.lookup, JsonVal.asArr, h]

/-- Claim C9: every test outcome held in a completed file report built from
the evaluator payload has a `success` field equal to the conjunction of the
`success` fields of its checks. -/
theorem test_success_is_and_of_checks (file : String) (elapsed : Nat)
    (raw : List (List String × String × List CheckReport)) (t : TestReport)
    (ht : t ∈ (evaluator_completed_report file elapsed raw).tests) :
    t.success = t.checks.all (fun c => c.success) := by
  rcases List.mem_map.1 ht with ⟨r, _, rfl⟩
  rfl

/-- Witness for C9: the membership hypothesis discharged on a concrete
one-test payload. -/
theorem test_success_is_and_of_checks_witness :
    (evaluator_test_report ["t"] "f:1" [⟨"c", true, none, "f:2"⟩]) ∈
      (evaluator_completed_report "f.nix" 0
        [(["t"], "f:1", [⟨"c", true, none, "f:2"⟩])]).tests ∧
    (evaluator_test_report ["t"] "f:1" [⟨"c", true, none, "f:2"⟩]).success =
      (evaluator_test_report ["t"] "f:1" [⟨"c", true, none, "f:2"⟩]).checks.all
        (fun c => c.success) :=
  ⟨by decide,
   test_success_is_and_of_checks "f.nix" 0 [(["t"], "f:1", [⟨"c", true, none, "f:2"⟩])]
     (evaluator_test_report ["t"] "f:1" [⟨"c", true, none, "f:2"⟩]) (by decide)⟩
